import Mathlib

/-!
# Verification of the heartwood node service state machine

A shallow embedding of `radicle-node/src/service.rs` (the service actor of the
heartwood peer-to-peer node) together with proofs about its behaviour.

Modelling conventions:
* Node ids, repository ids and timestamps are opaque values, modelled as `Nat`
  (timestamps are unsigned millisecond counters in the source).
* `HashMap`s / `BTreeMap`s are modelled as association lists with unique keys.
* Cryptographic signature verification (`Announcement::verify`,
  `SignedRefs::verify`) is out of scope of the service logic; its boolean
  outcome is carried on the message as a field.
* Sub-modules of the service that are not part of the core file
  (`session.rs`, `tracking.rs`, `filter.rs`, `message.rs`, `routing.rs`)
  are modelled from the specification; each such definition says so in its
  doc comment.
-/

deriving instance DecidableEq for Except

namespace Heartwood

abbrev NodeId := Nat
abbrev RepoId := Nat
abbrev Timestamp := Nat

/-- `MAX_TIME_DELTA = LocalDuration::from_mins(60)`, in milliseconds. -/
def maxTimeDeltaMillis : Nat := 60 * 60 * 1000

/-- `MIN_RECONNECTION_DELTA = LocalDuration::from_secs(3)`, in milliseconds. -/
def minReconnectionDeltaMillis : Nat := 3 * 1000

/-- `MAX_RECONNECTION_DELTA = LocalDuration::from_mins(60)`, in milliseconds. -/
def maxReconnectionDeltaMillis : Nat := 60 * 60 * 1000

/-- `TARGET_OUTBOUND_PEERS = 8`. -/
def targetOutboundPeers : Nat := 8

/-- Largest value of the `u64` timestamp type (`Timestamp::MAX`). -/
def timestampMax : Nat := 2 ^ 64 - 1

/-- `2u64.saturating_pow(k)`: saturating exponentiation on `u64`. -/
def satPow2 (k : Nat) : Nat := Nat.min (2 ^ k) (2 ^ 64 - 1)

/-- Rust `Ord::clamp`: `x.clamp(lo, hi)` for `lo ≤ hi`. -/
def clampNat (x lo hi : Nat) : Nat := Nat.min (Nat.max x lo) hi

/-! ## Association lists (model of `HashMap` / `BTreeMap`) -/

/-- Lookup in an association list (model of `HashMap::get`). -/
def lookupA {β : Type} : List (Nat × β) → Nat → Option β
  | [], _ => none
  | (k', v) :: rest, k => if k' = k then some v else lookupA rest k

/-- Insert-or-replace in an association list (model of `HashMap::insert` /
`Entry::or_insert_with` followed by mutation). A missing key is appended at
the position the map would create it; on lists with unique keys the
placement is unobservable through `lookupA`. -/
def setA {β : Type} : List (Nat × β) → Nat → β → List (Nat × β)
  | [], k, v => [(k, v)]
  | (k', v') :: rest, k, v =>
    if k' = k then (k, v) :: rest else (k', v') :: setA rest k v

/-- Remove a key from an association list (model of `HashMap::remove`). -/
def eraseA {β : Type} : List (Nat × β) → Nat → List (Nat × β)
  | [], _ => []
  | (k', v') :: rest, k =>
    if k' = k then rest else (k', v') :: eraseA rest k

theorem lookupA_setA_self {β : Type} (l : List (Nat × β)) (k : Nat) (v : β) :
    lookupA (setA l k v) k = some v := by
  induction l with
  | nil => simp [setA, lookupA]
  | cons hd tl ih =>
    obtain ⟨k', v'⟩ := hd
    by_cases h : k' = k
    · simp [setA, lookupA, h]
    · simp [setA, lookupA, h, ih]

theorem lookupA_setA_ne {β : Type} (l : List (Nat × β)) (k k' : Nat) (v : β)
    (h : k ≠ k') : lookupA (setA l k v) k' = lookupA l k' := by
  induction l with
  | nil => simp [setA, lookupA, h]
  | cons hd tl ih =>
    obtain ⟨k0, v0⟩ := hd
    by_cases h0 : k0 = k
    · simp [setA, lookupA, h0, h]
    · simp only [setA, lookupA, h0, if_false]
      by_cases h1 : k0 = k'
      · simp [h1]
      · simp [h1, ih]

theorem eraseA_setA {β : Type} (l : List (Nat × β)) (k : Nat) (v : β)
    (h : lookupA l k = none) : eraseA (setA l k v) k = l := by
  induction l with
  | nil => simp [setA, eraseA]
  | cons hd tl ih =>
    obtain ⟨k', v'⟩ := hd
    by_cases h0 : k' = k
    · simp [lookupA, h0] at h
    · simp only [lookupA, h0, if_false] at h
      simp [setA, eraseA, h0, ih h]

/-! ## Announcements (service/message.rs types, as used by `service.rs`) -/

/-- One `RefsAnnouncement` entry: the signed refs of one remote namespace.
`valid` carries the outcome of `theirs.verify(&theirs.id)` (crypto out of
scope). -/
structure RefsItem where
  id : NodeId
  valid : Bool
  deriving DecidableEq

/-- `InventoryAnnouncement { inventory, timestamp }`. -/
structure InventoryAnn where
  inventory : List RepoId
  timestamp : Timestamp
  deriving DecidableEq

/-- `RefsAnnouncement { rid, refs, timestamp }`. `isSynced` models
`message.is_synced(..)` and `isFresh` models `message.is_fresh(..)`
(both compare the announced refs with local storage; `message.rs` is not
part of the embedded core, so their outcome is carried on the message). -/
structure RefsAnn where
  rid : RepoId
  refs : List RefsItem
  timestamp : Timestamp
  isSynced : Bool
  isFresh : Bool
  deriving DecidableEq

/-- `NodeAnnouncement { features, addresses, alias, work, timestamp }`.
`isSeed` is `features.has(Features::SEED)`; `aliasOk` is whether
`ann.alias()` parses. -/
structure NodeAnn where
  features : Nat
  isSeed : Bool
  aliasOk : Bool
  timestamp : Timestamp
  deriving DecidableEq

/-- `AnnouncementMessage`: the three gossip announcement variants. -/
inductive AnnMessage where
  | inventory (m : InventoryAnn)
  | refs (m : RefsAnn)
  | node (m : NodeAnn)
  deriving DecidableEq

/-- `AnnouncementMessage::timestamp()`. -/
def AnnMessage.timestamp : AnnMessage → Timestamp
  | .inventory m => m.timestamp
  | .refs m => m.timestamp
  | .node m => m.timestamp

/-- `Announcement { node, message, signature }`; `validSig` carries the
outcome of `announcement.verify()`. -/
structure Announcement where
  node : NodeId
  message : AnnMessage
  validSig : Bool
  deriving DecidableEq

/-- `Announcement::timestamp()`. -/
def Announcement.timestamp (a : Announcement) : Timestamp := a.message.timestamp

/-! ## Gossip log: per-peer `Node` record (service.rs lines 1666-1733) -/

/-- `Node`: keeps track of the most recent announcements of a node. -/
structure GNode where
  lastRefs : List (RepoId × Announcement)
  lastInventory : Option Announcement
  lastNode : Option Announcement
  deriving DecidableEq

/-- `Node::default()`. -/
def GNode.empty : GNode := ⟨[], none, none⟩

/-- `Node::refs_announced`: process a refs announcement for the given node.
Returns `true` if the timestamp was updated, paired with the new record. -/
def GNode.refs_announced (n : GNode) (id : RepoId) (ann : Announcement) :
    Bool × GNode :=
  match lookupA n.lastRefs id with
  | none => (true, { n with lastRefs := setA n.lastRefs id ann })
  | some last =>
    if last.timestamp < ann.timestamp then
      (true, { n with lastRefs := setA n.lastRefs id ann })
    else (false, n)

/-- `Node::inventory_announced`. -/
def GNode.inventory_announced (n : GNode) (ann : Announcement) : Bool × GNode :=
  match n.lastInventory with
  | some last =>
    if last.timestamp < ann.timestamp then
      (true, { n with lastInventory := some ann })
    else (false, n)
  | none => (true, { n with lastInventory := some ann })

/-- `Node::node_announced`. -/
def GNode.node_announced (n : GNode) (ann : Announcement) : Bool × GNode :=
  match n.lastNode with
  | some last =>
    if last.timestamp < ann.timestamp then
      (true, { n with lastNode := some ann })
    else (false, n)
  | none => (true, { n with lastNode := some ann })

/-- Freshness of an incoming timestamp against an optionally stored one:
no stored record, or strictly newer. -/
def fresher (prior : Option Timestamp) (t : Timestamp) : Bool :=
  match prior with
  | none => true
  | some t' => t' < t

/-! ## Subscription filter (service/filter.rs)

Modelled from the spec: the filter module is not part of the embedded core.
Spec §4.D describes a compact set-membership structure over repo ids with
`insert`, `contains` and whole-set rebuild; we model it as an exact
membership list (bloom false positives are not modelled). -/

/-- Modelled from the spec: the subscription filter, as an exact
set-membership structure over repository ids. -/
def Filter := List RepoId
  deriving DecidableEq

/-- Modelled from the spec: `Filter::empty()`. -/
def Filter.empty : Filter := []

/-- Modelled from the spec: `Filter::insert`. -/
def Filter.insert (f : Filter) (rid : RepoId) : Filter := rid :: f

/-- Modelled from the spec: `Filter::contains`. -/
def Filter.contains (f : Filter) (rid : RepoId) : Bool :=
  List.contains f rid

/-- Modelled from the spec: whole-set rebuild of a filter from a list of
repository ids (`Filter::new(iter)`). -/
def Filter.ofList (l : List RepoId) : Filter := l

/-! ## Tracking configuration (service/tracking.rs)

Modelled from the spec: the tracking module is not part of the embedded
core. Spec §4.C: per-repo rows `(repo-id, policy ∈ {track, block},
scope ∈ {all, trusted})`, per-node trust rows, and `namespaces_for`. -/

inductive Policy where
  | Track
  | Block
  deriving DecidableEq

inductive Scope where
  | All
  | Trusted
  deriving DecidableEq

/-- Modelled from the spec: the tracking policy store (§4.C). `repos` holds
the per-repo rows, `trustedNodes` the tracked (trusted) nodes, and
`defaultPolicy`/`defaultScope` the configured defaults used when no row
exists. -/
structure TrackingCfg where
  repos : List (RepoId × (Policy × Scope))
  trustedNodes : List NodeId
  defaultPolicy : Policy
  defaultScope : Scope
  deriving DecidableEq

/-- Modelled from the spec: `tracking::Config::track_repo(id, scope)`;
upserts a `Track` row and returns whether the stored policy changed. -/
def TrackingCfg.track_repo (c : TrackingCfg) (rid : RepoId) (scope : Scope) :
    Bool × TrackingCfg :=
  match lookupA c.repos rid with
  | some (p, sc) =>
    if p = Policy.Track ∧ sc = scope then (false, c)
    else (true, { c with repos := setA c.repos rid (Policy.Track, scope) })
  | none => (true, { c with repos := setA c.repos rid (Policy.Track, scope) })

/-- Modelled from the spec: `tracking::Config::untrack_repo(id)`; deletes
the row and returns whether one existed. -/
def TrackingCfg.untrack_repo (c : TrackingCfg) (rid : RepoId) :
    Bool × TrackingCfg :=
  match lookupA c.repos rid with
  | some _ => (true, { c with repos := eraseA c.repos rid })
  | none => (false, c)

/-- Modelled from the spec: `tracking::Config::repo_policy(id)`, falling
back to the configured default when no row exists. -/
def TrackingCfg.repoPolicy (c : TrackingCfg) (rid : RepoId) : Policy × Scope :=
  (lookupA c.repos rid).getD (c.defaultPolicy, c.defaultScope)

/-- Modelled from the spec: `tracking::Config::is_repo_tracked(id)`. -/
def TrackingCfg.is_repo_tracked (c : TrackingCfg) (rid : RepoId) : Bool :=
  (c.repoPolicy rid).1 = Policy.Track

/-- The filter rebuild used by `Service::untrack_repo` and
`Service::initialize`: the ids of all repo rows whose policy is `Track`. -/
def rebuildFilter (c : TrackingCfg) : Filter :=
  Filter.ofList
    (c.repos.filterMap fun row =>
      if row.2.1 = Policy.Track then some row.1 else none)

/-! ## Routing table (node/routing.rs)

Modelled from the spec: the routing store implementation is not part of the
embedded core. Spec §4.A: a mapping keyed by `(repo-id, seed)`;
`insert(r, s, t)` returns `SeedAdded` if no prior row, `TimeUpdated` if `t`
exceeds the stored timestamp, `NotUpdated` otherwise. -/

inductive InsertResult where
  | SeedAdded
  | TimeUpdated
  | NotUpdated
  deriving DecidableEq

/-- Modelled from the spec: the routing table, keyed by `(repo-id, seed)`
with one timestamp per row (§4.A). -/
structure Routing where
  rows : List ((RepoId × NodeId) × Timestamp)
  deriving DecidableEq

/-- Lookup of a routing row by its `(repo-id, seed)` key. -/
def Routing.lookup (r : Routing) (rid : RepoId) (nid : NodeId) :
    Option Timestamp :=
  (r.rows.find? fun row => row.1 = (rid, nid)).map Prod.snd

/-- Replace the timestamp of an existing routing row. -/
def Routing.setRow (r : Routing) (rid : RepoId) (nid : NodeId)
    (t : Timestamp) : Routing :=
  ⟨r.rows.map fun row => if row.1 = (rid, nid) then (row.1, t) else row⟩

/-- Modelled from the spec: `routing::Store::insert(rid, nid, t)` (§4.A). -/
def Routing.insert (r : Routing) (rid : RepoId) (nid : NodeId)
    (t : Timestamp) : InsertResult × Routing :=
  match r.lookup rid nid with
  | none => (InsertResult.SeedAdded, ⟨((rid, nid), t) :: r.rows⟩)
  | some t' =>
    if t' < t then (InsertResult.TimeUpdated, r.setRow rid nid t)
    else (InsertResult.NotUpdated, r)

/-- Modelled from the spec: `routing::Store::remove(rid, nid)` (§4.A);
returns whether a row was removed. -/
def Routing.remove (r : Routing) (rid : RepoId) (nid : NodeId) :
    Bool × Routing :=
  if (r.lookup rid nid).isSome then
    (true, ⟨r.rows.filter fun row => row.1 ≠ (rid, nid)⟩)
  else (false, r)

/-- Modelled from the spec: `routing::Store::get_resources(nid)` (§4.A). -/
def Routing.get_resources (r : Routing) (nid : NodeId) : List RepoId :=
  (r.rows.filter fun row => row.1.2 = nid).map fun row => row.1.1

/-! ## Sessions (service/session.rs)

Modelled from the spec where noted: the session module is not part of the
embedded core; `service.rs` drives it through the calls embedded below.
Spec §3 and §4.F give the per-peer state machine and fetch queue. -/

/-- `session::PingState`. -/
inductive PingState where
  | idle
  | awaiting (ponglen : Nat)
  | ok
  deriving DecidableEq

/-- `session::State`: the per-peer connection state machine (§4.F). The
attempted address and `since` times are not observed by any embedded
operation and are omitted. -/
inductive SessionState where
  | Initial
  | Attempted
  | Connected (ping : PingState)
  | Disconnected (retryAt : Nat)
  deriving DecidableEq

/-- Subscription recorded on a session (`Subscribe { filter, since, until }`). -/
structure SubscribeMsg where
  filter : Filter
  since : Timestamp
  untilT : Timestamp
  deriving DecidableEq

/-- Modelled from the spec: the per-peer session record (§3): id, link,
state, attempts, last-active time, in-progress and queued fetches,
persistence flag and subscription filter. -/
structure Session where
  id : NodeId
  outbound : Bool
  state : SessionState
  attempts : Nat
  lastActive : Nat
  fetchingSet : List RepoId
  queued : List RepoId
  persistent : Bool
  subscribe : Option SubscribeMsg
  deriving DecidableEq

/-- `Session::is_connected`. -/
def Session.isConnected (s : Session) : Bool :=
  match s.state with
  | .Connected _ => true
  | _ => false

/-- `Session::is_connecting` (state `Initial` or `Attempted`). -/
def Session.isConnecting (s : Session) : Bool :=
  match s.state with
  | .Initial => true
  | .Attempted => true
  | _ => false

/-- `Session::is_disconnected`. -/
def Session.isDisconnected (s : Session) : Bool :=
  match s.state with
  | .Disconnected _ => true
  | _ => false

/-- Modelled from the spec: `Session::fetching()` — every repository the
session is currently fetching or has queued for fetching (§4.F, §5:
"a disconnect cancels all pending fetches for that peer"). -/
def Session.fetching (s : Session) : List RepoId :=
  s.fetchingSet ++ s.queued

/-- `session::FetchResult`: outcome of `Session::fetch` (§4.F). -/
inductive SFetchResult where
  | Queued
  | Ready
  | AlreadyFetching
  | NotConnected
  deriving DecidableEq

/-- Modelled from the spec: `Session::fetch(rid)` (§4.F): at most
`fetch_concurrency` repos in progress, further requests queued FIFO. -/
def Session.fetch (s : Session) (rid : RepoId) (concurrency : Nat) :
    SFetchResult × Session :=
  if s.isConnected = false then (SFetchResult.NotConnected, s)
  else if rid ∈ s.fetchingSet ∨ rid ∈ s.queued then
    (SFetchResult.AlreadyFetching, s)
  else if s.fetchingSet.length < concurrency then
    (SFetchResult.Ready, { s with fetchingSet := s.fetchingSet ++ [rid] })
  else (SFetchResult.Queued, { s with queued := s.queued ++ [rid] })

/-- Modelled from the spec: `Session::outbound(..)` constructor: sessions
are created in `Initial` on outbound connect (§3 lifecycle). -/
def Session.mkOutbound (nid : NodeId) (persistent : Bool) : Session :=
  ⟨nid, true, SessionState.Initial, 0, 0, [], [], persistent, none⟩

/-- Modelled from the spec: `Session::inbound(..)` constructor: inbound
sessions are created directly in `Connected` state (§3 lifecycle; the
transport reports them established). -/
def Session.mkInbound (nid : NodeId) (persistent : Bool) (now : Nat) :
    Session :=
  ⟨nid, false, SessionState.Connected PingState.idle, 0, now, [], [],
    persistent, none⟩

/-! ## Wire messages, errors, outbox intents and events -/

/-- `Message`: the wire messages handled by `Service::handle_message`. -/
inductive Message where
  | announcement (a : Announcement)
  | subscribe (s : SubscribeMsg)
  | ping (ponglen : Nat)
  | pong (zeroesLen : Nat)
  deriving DecidableEq

/-- `session::Error`, restricted to the variants produced by the embedded
code (`Misbehavior`, `InvalidTimestamp`, `Timeout`). -/
inductive SessionError where
  | misbehavior
  | invalidTimestamp (t : Timestamp)
  | timeout
  deriving DecidableEq

/-- `DisconnectReason` (service.rs lines 1597-1611). The error payloads of
`Dial`/`Connection`/`Fetch` are opaque trait objects; only their display
strings are observable, carried here. -/
inductive DiscReason where
  | dial (msg : String)
  | connection (msg : String)
  | fetch (msg : String)
  | session (e : SessionError)
  | command
  deriving DecidableEq

/-- Display string of a `session::Error` (its `Display` impl, modelled from
the spec's error descriptions; the exact text is not observed by any
claim). -/
def SessionError.display : SessionError → String
  | .misbehavior => "misbehavior"
  | .invalidTimestamp _ => "invalid timestamp"
  | .timeout => "timeout"

/-- `Display for DisconnectReason` (service.rs lines 1635-1645). -/
def DiscReason.display : DiscReason → String
  | .dial m => m
  | .connection m => m
  | .fetch m => "fetch: " ++ m
  | .session e => e.display
  | .command => "command"

/-- `io::Io`: outbox intents (spec §4.G; `io.rs` is not part of the
embedded core, but each intent is produced by embedded `service.rs` code).
Addresses and fetch namespaces are not observed by any claim and are
omitted from the payloads. -/
inductive Intent where
  | connect (nid : NodeId)
  | disconnect (nid : NodeId) (reason : DiscReason)
  | write (nid : NodeId) (msg : Message)
  | fetch (nid : NodeId) (rid : RepoId)
  | wakeup (millis : Nat)
  deriving DecidableEq

/-- `node::FetchResult`, as delivered to user responders. -/
inductive UserFetchResult where
  | success
  | failed (reason : String)
  deriving DecidableEq

/-- `Event`: domain events broadcast by the emitter (spec §4.J). Payloads
beyond the identifying ids are omitted. -/
inductive Event where
  | peerConnected (nid : NodeId)
  | seedDiscovered (rid : RepoId) (nid : NodeId)
  | seedDropped (rid : RepoId) (nid : NodeId)
  | refsFetched (rid : RepoId) (nid : NodeId)
  | refsSynced (rid : RepoId) (nid : NodeId)
  deriving DecidableEq

/-! ## The service (service.rs `Service` struct) -/

/-- Address-book entry (spec §4.B): announcement timestamp and last
connection attempt. Concrete transport addresses are not observed by the
embedded claims and are omitted; `addresses.insert` updating "some field's
timestamp advanced or a new address appeared" is modelled as the timestamp
advance. -/
structure AddrEntry where
  timestamp : Timestamp
  lastAttempt : Option Nat
  deriving DecidableEq

/-- `service::Config`, restricted to the fields read by the embedded code:
`relay`, the default tracking policy, the configured (persistent) peers
(`config.connect` / `config.peer` / `config.is_persistent`) and
`limits.fetch_concurrency`. -/
structure Config where
  relay : Bool
  policyTrack : Bool
  peers : List NodeId
  fetchConcurrency : Nat
  deriving DecidableEq

/-- The service state: the fields of `Service` observed by the embedded
operations. Channel responders (`chan::Sender`) are modelled by the
`fetchReqs` key set plus the `sentResults` log of replies delivered so
far. -/
structure Service where
  nodeId : NodeId
  clock : Nat
  config : Config
  gossipNodes : List (NodeId × GNode)
  routing : Routing
  sessions : List (NodeId × Session)
  tracking : TrackingCfg
  filter : Filter
  storageInv : List RepoId
  addresses : List (NodeId × AddrEntry)
  fetchReqs : List (RepoId × NodeId)
  sentResults : List ((RepoId × NodeId) × UserFetchResult)
  outbox : List Intent
  events : List Event
  deriving DecidableEq

/-- View of the gossip log for one node id, defaulting to the empty
record (the `entry(..).or_insert_with(Node::default)` pattern). -/
def Service.gossipView (s : Service) (nid : NodeId) : GNode :=
  (lookupA s.gossipNodes nid).getD GNode.empty

/-- `Sessions::is_connected(id)`. -/
def Service.isConnectedTo (s : Service) (nid : NodeId) : Bool :=
  match lookupA s.sessions nid with
  | some sess => sess.isConnected
  | none => false

/-- `Service::track_repo` (service.rs lines 292-299): update the tracking
policy, then insert the id into the subscription filter. The `Result`
error case (a storage fault) aborts without mutating and is not modelled. -/
def Service.track_repo (s : Service) (rid : RepoId) (scope : Scope) :
    Bool × Service :=
  let r := s.tracking.track_repo rid scope
  (r.1, { s with tracking := r.2, filter := s.filter.insert rid })

/-- `Service::untrack_repo` (service.rs lines 301-318): update the tracking
policy, then rebuild the filter from all tracked repo rows. -/
def Service.untrack_repo (s : Service) (rid : RepoId) : Bool × Service :=
  let r := s.tracking.untrack_repo rid
  (r.1, { s with tracking := r.2, filter := rebuildFilter r.2 })

/-- `tracking::Config::namespaces_for` (spec §4.C). Modelled from the spec:
scope `All` gives `Namespaces::All` (`none`); scope `Trusted` gives the
trusted node set, failing with `NoTrusted` when it is empty. -/
def Service.namespaces_for (s : Service) (rid : RepoId) :
    Except Unit (Option (List NodeId)) :=
  match (s.tracking.repoPolicy rid).2 with
  | Scope.All => Except.ok none
  | Scope.Trusted =>
    if s.tracking.trustedNodes.isEmpty then Except.error ()
    else Except.ok (some s.tracking.trustedNodes)

/-- `Service::fetch(rid, from)` (service.rs lines 577-620). -/
def Service.fetch (s : Service) (rid : RepoId) (nid : NodeId) : Service :=
  match lookupA s.sessions nid with
  | none => s
  | some sess =>
    if sess.isConnected = false then s
    else
      let fr := sess.fetch rid s.config.fetchConcurrency
      let s1 := { s with sessions := setA s.sessions nid fr.2 }
      match fr.1 with
      | SFetchResult.Ready =>
        match s1.namespaces_for rid with
        | Except.ok _ => { s1 with outbox := s1.outbox ++ [Intent.fetch nid rid] }
        | Except.error _ =>
          if (rid, nid) ∈ s1.fetchReqs then
            { s1 with
              fetchReqs := s1.fetchReqs.filter fun k => k ≠ (rid, nid)
              sentResults := s1.sentResults ++
                [((rid, nid), UserFetchResult.failed "no trusted nodes")] }
          else s1
      | _ => s1

/-! ## Routing synchronisation (service.rs `sync_routing`, lines 1192-1234) -/

/-- `SyncedRouting`: result of syncing the routing table with a node's
inventory. -/
structure SyncedRouting where
  added : List RepoId
  removed : List RepoId
  updated : List RepoId
  deriving DecidableEq

/-- `SyncedRouting::is_empty`. -/
def SyncedRouting.isEmpty (s : SyncedRouting) : Bool :=
  s.added.isEmpty && s.removed.isEmpty && s.updated.isEmpty

/-- First pass of `sync_routing`: insert every inventory entry, collecting
added and time-updated ids and the `SeedDiscovered` events. -/
def syncInsertLoop (nid : NodeId) (ts : Timestamp) :
    List RepoId → Routing → List RepoId × List RepoId × Routing × List Event
  | [], r => ([], [], r, [])
  | rid :: rest, r =>
    let ins := r.insert rid nid ts
    let rec_ := syncInsertLoop nid ts rest ins.2
    match ins.1 with
    | InsertResult.SeedAdded =>
      (rid :: rec_.1, rec_.2.1, rec_.2.2.1,
        Event.seedDiscovered rid nid :: rec_.2.2.2)
    | InsertResult.TimeUpdated =>
      (rec_.1, rid :: rec_.2.1, rec_.2.2.1, rec_.2.2.2)
    | InsertResult.NotUpdated => rec_

/-- Second pass of `sync_routing`: remove every resource of `nid` that is
not in the announced inventory, collecting removed ids and `SeedDropped`
events. -/
def syncRemoveLoop (nid : NodeId) (inventory : List RepoId) :
    List RepoId → Routing → List RepoId × Routing × List Event
  | [], r => ([], r, [])
  | rid :: rest, r =>
    if rid ∈ inventory then syncRemoveLoop nid inventory rest r
    else
      let rem := r.remove rid nid
      let rec_ := syncRemoveLoop nid inventory rest rem.2
      if rem.1 then
        (rid :: rec_.1, rec_.2.1, Event.seedDropped rid nid :: rec_.2.2)
      else rec_

/-- The pure core of `Service::sync_routing`: both passes over the routing
table, returning the sync summary, the new table and the emitted events. -/
def routingSync (r : Routing) (inventory : List RepoId) (nid : NodeId)
    (ts : Timestamp) : SyncedRouting × Routing × List Event :=
  let p1 := syncInsertLoop nid ts inventory r
  let resources := p1.2.2.1.get_resources nid
  let p2 := syncRemoveLoop nid inventory resources p1.2.2.1
  (⟨p1.1, p2.1, p1.2.1⟩, p2.2.1, p1.2.2.2 ++ p2.2.2)

/-- `Service::sync_routing` (service.rs lines 1192-1234). -/
def Service.sync_routing (s : Service) (inventory : List RepoId)
    (nid : NodeId) (ts : Timestamp) : SyncedRouting × Service :=
  let r := routingSync s.routing inventory nid ts
  (r.1, { s with routing := r.2.1, events := s.events ++ r.2.2 })

/-! ## Announcement handling (service.rs `handle_announcement`, lines 821-1047) -/

/-- Body of the `for id in message.inventory` loop of the inventory branch
(service.rs lines 875-907): update the announcer session's subscription
filter with the inventory item, and fetch tracked repositories missing
from local storage. -/
def Service.inventoryStep (s : Service) (announcer : NodeId) (id : RepoId) :
    Service :=
  match lookupA s.sessions announcer with
  | none => s
  | some sess =>
    let sess1 :=
      match sess.subscribe with
      | some sub =>
        { sess with subscribe := some { sub with filter := sub.filter.insert id } }
      | none => sess
    let s1 := { s with sessions := setA s.sessions announcer sess1 }
    if s1.tracking.is_repo_tracked id then
      if id ∈ s1.storageInv then s1 else s1.fetch id announcer
    else s1

/-- The inventory loop of the inventory branch (service.rs lines 875-907). -/
def Service.inventoryLoop : Service → NodeId → List RepoId → Service
  | s, _, [] => s
  | s, announcer, id :: rest =>
    Service.inventoryLoop (s.inventoryStep announcer id) announcer rest

/-- `Service::should_fetch_refs_announcement` (service.rs lines 1051-1086).
Freshness of the announced refs against storage is carried on the message
(`m.isFresh`); `NoTrusted` yields `Ok(false)`. Storage faults (the
remaining `Err` branch) are out of scope, so the embedded version never
returns an error. -/
def Service.should_fetch_refs_announcement (s : Service) (m : RefsAnn)
    (scope : Scope) : Bool :=
  if m.isFresh = false then false
  else
    match scope with
    | Scope.All => true
    | Scope.Trusted =>
      match s.namespaces_for m.rid with
      | Except.ok none => true
      | Except.ok (some trusted) =>
        let trusted1 := trusted.filter fun n => n ≠ s.nodeId
        m.refs.any fun r => trusted1.contains r.id
      | Except.error _ => false

/-- The `AnnouncementMessage::Inventory` branch of `handle_announcement`
(service.rs lines 854-910). `peer` is the gossip record of the announcer
obtained at entry. -/
def Service.handleInventoryAnn (s : Service) (peer : GNode)
    (ann : Announcement) (announcer : NodeId) (m : InventoryAnn) :
    Except SessionError Bool × Service :=
  let fr := peer.inventory_announced ann
  let s1 := { s with gossipNodes := setA s.gossipNodes announcer fr.2 }
  if fr.1 = false then (Except.ok false, s1)
  else
    let sync := s1.sync_routing m.inventory announcer m.timestamp
    if sync.1.isEmpty then (Except.ok false, sync.2)
    else
      let s2 := sync.2.inventoryLoop announcer m.inventory
      (Except.ok s.config.relay, s2)

/-- The `AnnouncementMessage::Refs` branch of `handle_announcement`
(service.rs lines 912-990): verify each per-remote entry, insert the
routing row (emitting `SeedDiscovered` on a new seed), then check
staleness against the gossip log, and finally decide fetching and
relaying from the tracking policy. -/
def Service.handleRefsAnn (s : Service) (peer : GNode) (relayer : NodeId)
    (ann : Announcement) (announcer : NodeId) (m : RefsAnn) :
    Except SessionError Bool × Service :=
  if m.refs.any fun r => r.valid = false then (Except.error SessionError.misbehavior, s)
  else
    let ins := s.routing.insert m.rid announcer m.timestamp
    let s1 := { s with routing := ins.2 }
    let s2 :=
      match ins.1 with
      | InsertResult.SeedAdded =>
        { s1 with events := s1.events ++ [Event.seedDiscovered m.rid relayer] }
      | _ => s1
    let fr := peer.refs_announced m.rid ann
    let s3 := { s2 with gossipNodes := setA s2.gossipNodes announcer fr.2 }
    if fr.1 = false then (Except.ok false, s3)
    else
      let s4 :=
        if m.isSynced then
          { s3 with events := s3.events ++ [Event.refsSynced m.rid announcer] }
        else s3
      let entry := s4.tracking.repoPolicy m.rid
      if entry.1 = Policy.Track then
        if s4.isConnectedTo announcer then
          if s4.should_fetch_refs_announcement m entry.2 then
            (Except.ok s.config.relay, s4.fetch m.rid announcer)
          else (Except.ok s.config.relay, s4)
        else (Except.ok s.config.relay, s4)
      else (Except.ok false, s4)

/-- `AddressBook::insert` stamped by a node announcement (spec §4.B).
Modelled from the spec: idempotent, returns `true` only if the record's
timestamp advanced (the new-address case is folded into the timestamp
advance). -/
def Service.addressInsert (s : Service) (nid : NodeId) (ts : Timestamp) :
    Bool × Service :=
  match lookupA s.addresses nid with
  | none =>
    (true, { s with addresses := setA s.addresses nid ⟨ts, none⟩ })
  | some e =>
    if e.timestamp < ts then
      (true, { s with addresses := setA s.addresses nid { e with timestamp := ts } })
    else (false, s)

/-- The `AnnouncementMessage::Node` branch of `handle_announcement`
(service.rs lines 991-1044). -/
def Service.handleNodeAnn (s : Service) (peer : GNode) (ann : Announcement)
    (announcer : NodeId) (m : NodeAnn) : Except SessionError Bool × Service :=
  let fr := peer.node_announced ann
  let s1 := { s with gossipNodes := setA s.gossipNodes announcer fr.2 }
  if fr.1 = false then (Except.ok false, s1)
  else if m.aliasOk = false then (Except.ok false, s1)
  else if m.isSeed = false then (Except.ok s.config.relay, s1)
  else
    let upd := s1.addressInsert announcer m.timestamp
    if upd.1 then (Except.ok s.config.relay, upd.2)
    else (Except.ok false, upd.2)

/-- `Service::handle_announcement` (service.rs lines 821-1047). Returns
whether the announcement should be relayed, or a session error; the
service state is threaded through all mutations, including those occurring
before an error is returned. -/
def Service.handle_announcement (s : Service) (relayer : NodeId)
    (ann : Announcement) : Except SessionError Bool × Service :=
  if ann.validSig = false then (Except.error SessionError.misbehavior, s)
  else if ann.node = s.nodeId then (Except.ok false, s)
  else
    let announcer := ann.node
    let timestamp := ann.message.timestamp
    let peer := s.gossipView announcer
    let s1 := { s with gossipNodes := setA s.gossipNodes announcer peer }
    if maxTimeDeltaMillis < timestamp - s1.clock then
      (Except.error (SessionError.invalidTimestamp timestamp), s1)
    else
      match ann.message with
      | AnnMessage.inventory m => s1.handleInventoryAnn peer ann announcer m
      | AnnMessage.refs m => s1.handleRefsAnn peer relayer ann announcer m
      | AnnMessage.node m => s1.handleNodeAnn peer ann announcer m

/-! ## Message handling (service.rs `handle_message` / `received_message`) -/

/-- `Ping::MAX_PONG_ZEROES`. Modelled from the spec: defined in
`message.rs`, which is not part of the embedded core; the value is not
observed by any claim. -/
def maxPongZeroes : Nat := 256

/-- Node ids of all fully connected sessions (`Sessions::connected`). -/
def Service.connectedIds (s : Service) : List NodeId :=
  (s.sessions.filter fun p => p.2.isConnected).map Prod.fst

/-- All announcements stored in one gossip record, in the iteration order
of `Gossip::filtered` (last node, last inventory, then per-repo refs). -/
def GNode.announcements (n : GNode) : List Announcement :=
  (n.lastNode.toList ++ n.lastInventory.toList) ++ n.lastRefs.map Prod.snd

/-- `Announcement::matches(filter)`. Modelled from the spec: defined in
`message.rs`; a refs announcement matches when the filter contains its
repository id, node and inventory announcements always match. -/
def Announcement.matches (a : Announcement) (f : Filter) : Bool :=
  match a.message with
  | AnnMessage.refs m => f.contains m.rid
  | _ => true

/-- `Gossip::filtered(filter, start, end)` (service.rs lines 1801-1819):
all stored announcements within `[start, end)` matching the filter. -/
def Service.gossipFiltered (s : Service) (f : Filter)
    (since untilT : Timestamp) : List Announcement :=
  ((s.gossipNodes.map fun p => p.2.announcements).flatten).filter fun a =>
    (since ≤ a.timestamp && a.timestamp < untilT) && a.matches f

/-- `Service::handle_message` (service.rs lines 1088-1163). Note that in
states `Attempted` and `Initial` the message is only logged (`error!`) and
the function falls through to `Ok(())`. -/
def Service.handle_message (s : Service) (remote : NodeId) (msg : Message) :
    Except SessionError Unit × Service :=
  match lookupA s.sessions remote with
  | none => (Except.ok (), s)
  | some peer0 =>
    let peer := { peer0 with lastActive := s.clock }
    let s1 := { s with sessions := setA s.sessions remote peer }
    match peer.state, msg with
    | SessionState.Connected _, Message.announcement ann =>
      let relayer := peer.id
      let announcer := ann.node
      let res := s1.handle_announcement relayer ann
      match res.1 with
      | Except.error e => (Except.error e, res.2)
      | Except.ok true =>
        let targets := res.2.connectedIds.filter fun id =>
          id != remote && id != announcer
        (Except.ok (),
          { res.2 with
            outbox := res.2.outbox ++
              targets.map fun id => Intent.write id (Message.announcement ann) })
      | Except.ok false => (Except.ok (), res.2)
    | SessionState.Connected _, Message.subscribe sub =>
      let anns := (s1.gossipFiltered sub.filter sub.since sub.untilT).filter
        fun a => a.node != remote
      let s2 :=
        { s1 with
          outbox := s1.outbox ++
            anns.map fun a => Intent.write remote (Message.announcement a) }
      (Except.ok (),
        { s2 with sessions := setA s2.sessions remote { peer with subscribe := some sub } })
    | SessionState.Connected _, Message.ping n =>
      if maxPongZeroes < n then (Except.ok (), s1)
      else
        (Except.ok (),
          { s1 with outbox := s1.outbox ++ [Intent.write remote (Message.pong n)] })
    | SessionState.Connected ping, Message.pong z =>
      match ping with
      | PingState.awaiting n =>
        if n = z then
          (Except.ok (),
            { s1 with
              sessions := setA s1.sessions remote
                { peer with state := SessionState.Connected PingState.ok } })
        else (Except.ok (), s1)
      | _ => (Except.ok (), s1)
    | SessionState.Attempted, _ => (Except.ok (), s1)
    | SessionState.Initial, _ => (Except.ok (), s1)
    | SessionState.Disconnected _, _ => (Except.ok (), s1)

/-- `Service::received_message` (service.rs lines 802-815): on a session
error, enqueue a `Disconnect` intent for the peer. -/
def Service.received_message (s : Service) (remote : NodeId) (msg : Message) :
    Service :=
  let r := s.handle_message remote msg
  match r.1 with
  | Except.ok _ => r.2
  | Except.error e =>
    { r.2 with
      outbox := r.2.outbox ++ [Intent.disconnect remote (DiscReason.session e)] }

/-! ## Connection lifecycle (service.rs `connect` / `connected` /
`disconnected` / `maintain_connections`) -/

/-- `AddressBook::attempted(nid, addr, now)` (spec §4.B): stamp the last
connection attempt. Modelled from the spec: a missing row is left
untouched. -/
def Service.attemptedStamp (s : Service) (nid : NodeId) : Service :=
  match lookupA s.addresses nid with
  | some e =>
    { s with addresses := setA s.addresses nid { e with lastAttempt := some s.clock } }
  | none => s

/-- `Service::connect(nid, addr)` (service.rs lines 1303-1329): refuse when
a session already exists or the id is our own; otherwise stamp the address
book, insert an outbound session and enqueue a `Connect` intent. -/
def Service.connect (s : Service) (nid : NodeId) : Bool × Service :=
  if (lookupA s.sessions nid).isSome then (false, s)
  else if nid = s.nodeId then (false, s)
  else
    let persistent := nid ∈ s.config.peers
    let s1 := s.attemptedStamp nid
    (true,
      { s1 with
        sessions := setA s1.sessions nid (Session.mkOutbound nid persistent)
        outbox := s1.outbox ++ [Intent.connect nid] })

/-- `Service::available_peers` (service.rs lines 1431-1460): address-book
entries without a session and distinct from the local id, up to the target
outbound count. -/
def Service.available_peers (s : Service) : List (NodeId × AddrEntry) :=
  let outboundCount := (s.sessions.filter fun p =>
    p.2.outbound && (p.2.isConnected || p.2.isConnecting)).length
  let wanted := targetOutboundPeers - outboundCount
  if wanted = 0 then []
  else
    (s.addresses.filter fun e =>
      (lookupA s.sessions e.1).isNone && e.1 != s.nodeId).take wanted

/-- `Service::maintain_connections` (service.rs lines 1499-1512): connect
to every available peer whose last attempt is at least
`MAX_RECONNECTION_DELTA` old. -/
def Service.maintain_connections (s : Service) : Service :=
  let candidates := s.available_peers.filter fun e =>
    maxReconnectionDeltaMillis ≤ s.clock - (e.2.lastAttempt.getD 0)
  candidates.foldl (fun acc e => (acc.connect e.1).2) s

/-- `Service::filter()` (service.rs lines 1361-1369): under the global
`Track` policy an empty (match-all) filter is sent, otherwise the current
tracked-repo filter. -/
def Service.filterMethod (s : Service) : Filter :=
  if s.config.policyTrack then Filter.empty else s.filter

/-- `SUBSCRIBE_BACKLOG_DELTA = LocalDuration::from_mins(60)` in millis. -/
def subscribeBacklogMillis : Nat := 60 * 60 * 1000

/-- `gossip::handshake` (service.rs lines 1822-1848): the three messages
sent on every established connection — self node announcement, self
inventory, and a subscription starting `SUBSCRIBE_BACKLOG_DELTA` in the
past. Modelled from the spec where the payload constructors live in the
missing `message.rs`: the node-announcement payload fields other than the
author are not observed by any claim and carry fixed values. -/
def Service.handshakeMsgs (s : Service) : List Message :=
  [ Message.announcement ⟨s.nodeId, AnnMessage.node ⟨0, true, true, s.clock⟩, true⟩,
    Message.announcement ⟨s.nodeId, AnnMessage.inventory ⟨s.storageInv, s.clock⟩, true⟩,
    Message.subscribe ⟨s.filterMethod, s.clock - subscribeBacklogMillis, timestampMax⟩ ]

/-- `Service::connected(remote, link)` (service.rs lines 718-753). An
outbound connection transitions the existing session to `Connected`
(resetting the attempt counter, per spec §8 invariant 6); an inbound
connection inserts a fresh session when none exists — with no check of
the remote id against the local one. The `addresses.connected` last-success
stamp of the outbound branch is not modelled (no claim observes it). -/
def Service.connected (s : Service) (remote : NodeId) (isOutbound : Bool) :
    Service :=
  let s0 := { s with events := s.events ++ [Event.peerConnected remote] }
  let msgs := s0.handshakeMsgs
  if isOutbound then
    match lookupA s0.sessions remote with
    | some peer =>
      let peer1 :=
        { peer with
          state := SessionState.Connected PingState.idle
          attempts := 0
          lastActive := s0.clock }
      { s0 with
        sessions := setA s0.sessions remote peer1
        outbox := s0.outbox ++ msgs.map (Intent.write remote) }
    | none => s0
  else
    match lookupA s0.sessions remote with
    | some _ => s0
    | none =>
      let peer := Session.mkInbound remote (remote ∈ s0.config.peers) s0.clock
      { s0 with
        sessions := setA s0.sessions remote peer
        outbox := s0.outbox ++ msgs.map (Intent.write remote) }

/-- The fetch-cancellation loop of `Service::disconnected` (service.rs
lines 769-778): for every repository the session was fetching, remove any
pending user fetch request keyed by it and reply `Failed` to the
responder. -/
def cancelLoop (remote : NodeId) (fmsg : String) :
    List RepoId → List (RepoId × NodeId) →
    List ((RepoId × NodeId) × UserFetchResult) →
    List (RepoId × NodeId) × List ((RepoId × NodeId) × UserFetchResult)
  | [], reqs, sent => (reqs, sent)
  | rid :: rest, reqs, sent =>
    if (rid, remote) ∈ reqs then
      cancelLoop remote fmsg rest (reqs.filter fun k => k ≠ (rid, remote))
        (sent ++ [((rid, remote), UserFetchResult.failed fmsg)])
    else cancelLoop remote fmsg rest reqs sent

/-- `Service::disconnected(remote, reason)` (service.rs lines 755-800):
cancel pending fetches for the peer; then either schedule a reconnection
(persistent peers: exponential backoff clamped to
`[MIN_RECONNECTION_DELTA, MAX_RECONNECTION_DELTA]`, session moved to
`Disconnected` with `retry_at = now + delay`) or drop the session,
re-filling outbound slots when the dropped link was outbound. -/
def Service.disconnected (s : Service) (remote : NodeId)
    (reason : DiscReason) : Service :=
  let since := s.clock
  match lookupA s.sessions remote with
  | none => s
  | some session =>
    let cl := cancelLoop remote ("disconnected: " ++ reason.display)
      session.fetching s.fetchReqs s.sentResults
    let s1 := { s with fetchReqs := cl.1, sentResults := cl.2 }
    if remote ∈ s1.config.peers then
      let delay := clampNat (satPow2 session.attempts * 1000)
        minReconnectionDeltaMillis maxReconnectionDeltaMillis
      let session1 := { session with state := SessionState.Disconnected (since + delay) }
      { s1 with
        sessions := setA s1.sessions remote session1
        outbox := s1.outbox ++ [Intent.wakeup delay] }
    else
      let s2 := { s1 with sessions := eraseA s1.sessions remote }
      if session.outbound then s2.maintain_connections else s2

/-! ## Concrete states used by witnesses and counterexamples -/

/-- A configuration with relaying enabled, default policy not `Track`, no
persistent peers, fetch concurrency 1. -/
def cfg0 : Config := ⟨true, false, [], 1⟩

/-- An empty tracking store with default policy `Block`. -/
def trk0 : TrackingCfg := ⟨[], [], Policy.Block, Scope.All⟩

/-- A freshly initialised service with node id 0 and no peers. -/
def svc0 : Service :=
  ⟨0, 0, cfg0, [], ⟨[]⟩, [], trk0, [], [], [], [], [], [], []⟩

/-! ## General lemmas -/

theorem filter_eq_singleton {α : Type} [DecidableEq α] (l : List α) (a : α)
    (h : l.Nodup) (ha : a ∈ l) : l.filter (fun x => x = a) = [a] := by
  induction l with
  | nil => cases ha
  | cons b tl ih =>
    rcases List.nodup_cons.mp h with ⟨hb, htl⟩
    rcases List.mem_cons.mp ha with h1 | h1
    · subst h1
      have : tl.filter (fun x => x = a) = [] := by
        apply List.filter_eq_nil_iff.mpr
        intro x hx
        simp only [decide_eq_true_eq]
        intro hxa
        exact hb (hxa ▸ hx)
      simp [List.filter_cons, this]
    · have hba : b ≠ a := fun hba => hb (hba ▸ h1)
      simp [List.filter_cons, hba, ih htl h1]

theorem not_lt_sub_of_le_add (a b c : Nat) (h : b ≤ c + a) : ¬ a < b - c := by
  omega

theorem filter_map_comm {α β : Type} (l : List α) (f : α → β) (p : β → Bool) :
    (l.map f).filter p = (l.filter fun a => p (f a)).map f := by
  induction l with
  | nil => rfl
  | cons hd tl ih =>
    by_cases h : p (f hd) <;> simp [List.filter_cons, h, ih]

/-! ## C4: gossip-log update methods -/

/-- C4. For each gossip-log update method (`refs_announced` for a given
repo id, `inventory_announced`, `node_announced`): the method returns
`true` exactly when no record of that kind is stored or the incoming
announcement's timestamp strictly exceeds the stored one, and in that case
the stored record becomes the incoming announcement; otherwise the stored
record (indeed the whole node record) is unchanged. -/
theorem gossip_log_update_fresh_only (n : GNode) (rid : RepoId)
    (ann : Announcement) :
    ((n.refs_announced rid ann).1 =
        fresher ((lookupA n.lastRefs rid).map Announcement.timestamp)
          ann.timestamp
      ∧ lookupA (n.refs_announced rid ann).2.lastRefs rid =
          (if (n.refs_announced rid ann).1 then some ann
           else lookupA n.lastRefs rid)
      ∧ ((n.refs_announced rid ann).1 = false →
          (n.refs_announced rid ann).2 = n))
    ∧ ((n.inventory_announced ann).1 =
        fresher (n.lastInventory.map Announcement.timestamp) ann.timestamp
      ∧ (n.inventory_announced ann).2.lastInventory =
          (if (n.inventory_announced ann).1 then some ann else n.lastInventory)
      ∧ ((n.inventory_announced ann).1 = false →
          (n.inventory_announced ann).2 = n))
    ∧ ((n.node_announced ann).1 =
        fresher (n.lastNode.map Announcement.timestamp) ann.timestamp
      ∧ (n.node_announced ann).2.lastNode =
          (if (n.node_announced ann).1 then some ann else n.lastNode)
      ∧ ((n.node_announced ann).1 = false →
          (n.node_announced ann).2 = n)) := by
  refine ⟨?_, ?_, ?_⟩
  · cases h : lookupA n.lastRefs rid with
    | none => simp [GNode.refs_announced, h, fresher, lookupA_setA_self]
    | some last =>
      by_cases ht : last.timestamp < ann.timestamp <;>
        simp [GNode.refs_announced, h, fresher, ht, lookupA_setA_self]
  · cases h : n.lastInventory with
    | none => simp [GNode.inventory_announced, h, fresher]
    | some last =>
      by_cases ht : last.timestamp < ann.timestamp <;>
        simp [GNode.inventory_announced, h, fresher, ht]
  · cases h : n.lastNode with
    | none => simp [GNode.node_announced, h, fresher]
    | some last =>
      by_cases ht : last.timestamp < ann.timestamp <;>
        simp [GNode.node_announced, h, fresher, ht]

/-- Witness for C4 at a concrete record: a stale refs announcement is
refused, a strictly newer one replaces the stored record. -/
theorem gossip_log_update_fresh_only_witness :
    ((⟨[(1, ⟨3, AnnMessage.refs ⟨1, [], 5, false, false⟩, true⟩)], none, none⟩ :
        GNode).refs_announced 1
          ⟨3, AnnMessage.refs ⟨1, [], 5, false, false⟩, true⟩).1 = false ∧
    ((⟨[], none, none⟩ : GNode).inventory_announced
        ⟨3, AnnMessage.inventory ⟨[], 7⟩, true⟩).1 = true := by
  have h1 := gossip_log_update_fresh_only
    ⟨[(1, ⟨3, AnnMessage.refs ⟨1, [], 5, false, false⟩, true⟩)], none, none⟩ 1
    ⟨3, AnnMessage.refs ⟨1, [], 5, false, false⟩, true⟩
  have h2 := gossip_log_update_fresh_only ⟨[], none, none⟩ 1
    ⟨3, AnnMessage.inventory ⟨[], 7⟩, true⟩
  exact ⟨by rw [h1.1.1]; decide, by rw [h2.2.1.1]; decide⟩

/-! ## C7: tracking inserts into the subscription filter -/

/-- C7. Immediately after any (successful) `Service::track_repo(r, scope)`
call, the subscription filter contains `r`, whatever boolean the call
returns. -/
theorem track_repo_filter_contains (s : Service) (rid : RepoId)
    (scope : Scope) :
    ((s.track_repo rid scope).2.filter).contains rid = true := by
  simp [Service.track_repo, Filter.insert, Filter.contains]

/-! ## C8: track then untrack restores the filter -/

/-- C8. For a repository with no tracking row, starting from a state whose
filter is the rebuild from the tracked-repo set, `track_repo` followed by
`untrack_repo` restores both the tracking store and the subscription
filter to their original values. -/
theorem track_untrack_restores_filter (s : Service) (rid : RepoId)
    (scope : Scope)
    (hnot : lookupA s.tracking.repos rid = none)
    (hfil : s.filter = rebuildFilter s.tracking) :
    ((s.track_repo rid scope).2.untrack_repo rid).2.filter = s.filter
    ∧ ((s.track_repo rid scope).2.untrack_repo rid).2.tracking = s.tracking := by
  have htrk : (s.track_repo rid scope).2.tracking.repos =
      setA s.tracking.repos rid (Policy.Track, scope) := by
    simp [Service.track_repo, TrackingCfg.track_repo, hnot]
  have hun : ((s.track_repo rid scope).2.untrack_repo rid).2.tracking =
      s.tracking := by
    simp only [Service.untrack_repo, TrackingCfg.untrack_repo, htrk,
      lookupA_setA_self]
    have : (s.track_repo rid scope).2.tracking = { s.tracking with
        repos := setA s.tracking.repos rid (Policy.Track, scope) } := by
      simp [Service.track_repo, TrackingCfg.track_repo, hnot]
    rw [this]
    simp [eraseA_setA _ _ _ hnot]
  refine ⟨?_, hun⟩
  have : ((s.track_repo rid scope).2.untrack_repo rid).2.filter =
      rebuildFilter ((s.track_repo rid scope).2.untrack_repo rid).2.tracking := by
    simp [Service.untrack_repo]
  rw [this, hun, ← hfil]

/-- Witness for C8 at the empty service and repository id 7. -/
theorem track_untrack_restores_filter_witness :
    lookupA svc0.tracking.repos 7 = none ∧
    ((svc0.track_repo 7 Scope.All).2.untrack_repo 7).2.filter = svc0.filter :=
  ⟨by decide,
    (track_untrack_restores_filter svc0 7 Scope.All (by decide) (by decide)).1⟩

/-! ## C1: messages in `Attempted` / `Initial` states -/

/-- A service holding one outbound session to peer 1 still in `Initial`
state. -/
def svcInit : Service :=
  ⟨0, 0, cfg0, [], ⟨[]⟩, [(1, Session.mkOutbound 1 false)], trk0, [], [],
    [], [], [], [], []⟩

/-- Counterexample to C1 as stated: peer 1's session is in `Initial`
state, a `Ping` message arrives, yet no `Disconnect` intent is produced
(`received_message` leaves the outbox empty) and `handle_message` returns
`Ok` — the message is merely logged and dropped. -/
theorem connecting_peer_message_no_disconnect_cex :
    (lookupA svcInit.sessions 1).map Session.state =
        some SessionState.Initial
    ∧ (svcInit.received_message 1 (Message.ping 0)).outbox = []
    ∧ (svcInit.handle_message 1 (Message.ping 0)).1 = Except.ok () := by
  decide

/-- The session update performed at the top of `handle_message`
(`peer.last_active = self.clock`). -/
def sessTouch (sess : Session) (c : Nat) : Session :=
  { sess with lastActive := c }

/-- C1 (amended). A wire message received from a session in state
`Attempted` or `Initial` is logged and dropped: `handle_message` returns
`Ok(())` and `received_message` enqueues no intent at all — in
particular no `Disconnect` intent for the peer. -/
theorem connecting_peer_message_no_disconnect (s : Service) (remote : NodeId)
    (msg : Message) (sess : Session)
    (hs : lookupA s.sessions remote = some sess)
    (hstate : sess.state = SessionState.Initial ∨
      sess.state = SessionState.Attempted) :
    (s.handle_message remote msg).1 = Except.ok ()
    ∧ (s.received_message remote msg).outbox = s.outbox := by
  have h1 : s.handle_message remote msg = (Except.ok (),
      { s with sessions := setA s.sessions remote (sessTouch sess s.clock) }) := by
    unfold Service.handle_message
    rw [hs]
    rcases hstate with h | h <;> (cases msg <;> simp [h, sessTouch])
  refine ⟨by rw [h1], ?_⟩
  unfold Service.received_message
  rw [h1]

/-- Witness for C1 (amended) at the concrete `Initial`-state service. -/
theorem connecting_peer_message_no_disconnect_witness :
    (svcInit.handle_message 1 (Message.pong 3)).1 = Except.ok () :=
  (connecting_peer_message_no_disconnect svcInit 1 (Message.pong 3)
    (Session.mkOutbound 1 false) (by decide) (Or.inl (by decide))).1

/-! ## C6: the local id as a session key -/

theorem attemptedStamp_sessions (s : Service) (nid : NodeId) :
    (s.attemptedStamp nid).sessions = s.sessions := by
  unfold Service.attemptedStamp
  split <;> rfl

theorem attemptedStamp_nodeId (s : Service) (nid : NodeId) :
    (s.attemptedStamp nid).nodeId = s.nodeId := by
  unfold Service.attemptedStamp
  split <;> rfl

theorem connect_preserve_self (s : Service) (nid : NodeId)
    (h : lookupA s.sessions s.nodeId = none) :
    (s.connect nid).2.nodeId = s.nodeId
    ∧ lookupA (s.connect nid).2.sessions s.nodeId = none := by
  unfold Service.connect
  by_cases h1 : (lookupA s.sessions nid).isSome = true
  · simp [h1, h]
  · by_cases h2 : nid = s.nodeId
    · simp [h1, h2, h]
    · simp only [h1, h2, if_false, Bool.false_eq_true]
      refine ⟨attemptedStamp_nodeId s nid, ?_⟩
      rw [lookupA_setA_ne _ _ _ _ h2, attemptedStamp_sessions]
      exact h

theorem foldl_connect_no_self (l : List (NodeId × AddrEntry)) :
    ∀ s : Service, lookupA s.sessions s.nodeId = none →
      (l.foldl (fun acc e => (acc.connect e.1).2) s).nodeId = s.nodeId
      ∧ lookupA (l.foldl (fun acc e => (acc.connect e.1).2) s).sessions
          s.nodeId = none := by
  induction l with
  | nil => exact fun s h => ⟨rfl, h⟩
  | cons e tl ih =>
    intro s h
    simp only [List.foldl_cons]
    have hc := connect_preserve_self s e.1 h
    have hrec := ih ((s.connect e.1).2) (hc.1.symm ▸ hc.2)
    refine ⟨?_, ?_⟩
    · rw [hrec.1, hc.1]
    · rw [← hc.1]
      exact hrec.2

/-- Counterexample to C6 as stated: the inbound `connected` entry point
performs no self-check, so a transport-reported inbound connection from
the local node id (0) inserts a session keyed by the local id. -/
theorem self_never_inserted_cex :
    svc0.nodeId = 0
    ∧ (lookupA ((svc0.connected 0 false).sessions) 0).isSome = true := by
  decide

/-- C6 (amended). The outbound connection paths never insert the local
node id as a session key: `connect` (used by the connect command and by
`maintain_connections`) refuses the local id without touching the session
table, and `maintain_connections` preserves the absence of a self-keyed
session. The inbound `connected` entry point, however, performs no
self-check and inserts whatever remote id the transport reports,
including the local one. -/
theorem self_never_inserted_by_connect_paths (s : Service) (nid : NodeId) :
    (nid = s.nodeId → (s.connect nid).1 = false ∧ (s.connect nid).2 = s)
    ∧ (lookupA s.sessions s.nodeId = none →
        lookupA (s.maintain_connections).sessions s.nodeId = none) := by
  constructor
  · intro hself
    unfold Service.connect
    by_cases h1 : (lookupA s.sessions nid).isSome = true
    · simp [h1]
    · simp [h1, hself]
  · intro h
    unfold Service.maintain_connections
    dsimp only
    have := foldl_connect_no_self
      ((s.available_peers).filter fun e =>
        maxReconnectionDeltaMillis ≤ s.clock - (e.2.lastAttempt.getD 0)) s h
    exact this.2

/-- Witness for C6 (amended) at the empty service. -/
theorem self_never_inserted_by_connect_paths_witness :
    (svc0.connect 0).1 = false
    ∧ lookupA (svc0.maintain_connections).sessions 0 = none := by
  have h := self_never_inserted_by_connect_paths svc0 0
  exact ⟨(h.1 rfl).1, h.2 (by decide)⟩

/-! ## C2: announcements from the far future -/

/-- The gossip-map update performed at the start of `handle_announcement`
(`entry(announcer).or_insert_with(Node::default)`): the announcer's entry
is materialised, with its current (or default) value. -/
def Service.gossipTouch (s : Service) (nid : NodeId) : Service :=
  { s with gossipNodes := setA s.gossipNodes nid (s.gossipView nid) }

theorem handle_announcement_ts_err (s : Service) (relayer : NodeId)
    (ann : Announcement)
    (hsig : ann.validSig = true)
    (hnode : ann.node ≠ s.nodeId)
    (hts : s.clock + maxTimeDeltaMillis < ann.message.timestamp) :
    s.handle_announcement relayer ann =
      (Except.error (SessionError.invalidTimestamp ann.message.timestamp),
        s.gossipTouch ann.node) := by
  have hlt : maxTimeDeltaMillis < ann.message.timestamp - s.clock := by omega
  unfold Service.handle_announcement Service.gossipTouch
  simp [hsig, hnode, hlt]

/-- C2. A received announcement with a valid signature, authored by
another node, whose timestamp exceeds the local clock by more than
`MAX_TIME_DELTA`, makes `handle_announcement` return the
`InvalidTimestamp` error; the gossip log (viewed per node), the routing
table and the outbox are unchanged, and when such an announcement arrives
through `received_message` on a connected session the only intent
produced is the `Disconnect` for that peer — it is relayed to no one. -/
theorem invalid_timestamp_rejected (s : Service) (relayer : NodeId)
    (ann : Announcement)
    (hsig : ann.validSig = true)
    (hnode : ann.node ≠ s.nodeId)
    (hts : s.clock + maxTimeDeltaMillis < ann.message.timestamp) :
    (s.handle_announcement relayer ann).1 =
      Except.error (SessionError.invalidTimestamp ann.message.timestamp)
    ∧ (∀ n, (s.handle_announcement relayer ann).2.gossipView n = s.gossipView n)
    ∧ (s.handle_announcement relayer ann).2.routing = s.routing
    ∧ (s.handle_announcement relayer ann).2.outbox = s.outbox
    ∧ (∀ remote sess, lookupA s.sessions remote = some sess →
        sess.isConnected = true →
        (s.received_message remote (Message.announcement ann)).outbox =
          s.outbox ++ [Intent.disconnect remote (DiscReason.session
            (SessionError.invalidTimestamp ann.message.timestamp))]) := by
  have h := handle_announcement_ts_err s relayer ann hsig hnode hts
  refine ⟨by rw [h], ?_, by rw [h]; rfl, by rw [h]; rfl, ?_⟩
  · intro n
    rw [h]
    unfold Service.gossipTouch Service.gossipView
    by_cases hn : n = ann.node
    · subst hn
      simp [lookupA_setA_self, Service.gossipView]
    · have : ann.node ≠ n := fun hc => hn hc.symm
      simp [lookupA_setA_ne _ _ _ _ this]
  · intro remote sess hsess hconn
    obtain ⟨p, hstate⟩ : ∃ p, sess.state = SessionState.Connected p := by
      unfold Session.isConnected at hconn
      rcases hst : sess.state with _ | _ | p | _ <;> rw [hst] at hconn <;>
        first
        | exact ⟨_, rfl⟩
        | simp at hconn
    have h1 := handle_announcement_ts_err
      { s with sessions := setA s.sessions remote (sessTouch sess s.clock) }
      (sessTouch sess s.clock).id ann hsig hnode hts
    have h2 : s.handle_message remote (Message.announcement ann) =
        (Except.error (SessionError.invalidTimestamp ann.message.timestamp),
          Service.gossipTouch
            { s with sessions := setA s.sessions remote (sessTouch sess s.clock) }
            ann.node) := by
      unfold Service.handle_message
      rw [hsess]
      simp only [sessTouch] at h1 ⊢
      rw [hstate] at h1 ⊢
      simp [h1]
    unfold Service.received_message
    rw [h2]
    simp [Service.gossipTouch]

/-- The concrete service used by the C2 witness: node 0 with a connected
session to node 2. -/
def svcConn2 : Service :=
  ⟨0, 0, cfg0, [], ⟨[]⟩, [(2, Session.mkInbound 2 false 0)], trk0, [], [],
    [], [], [], [], []⟩

/-- The far-future inventory announcement used by the C2 witness. -/
def annFuture : Announcement :=
  ⟨1, AnnMessage.inventory ⟨[], 10 * maxTimeDeltaMillis⟩, true⟩

/-! ## C10: refs announcements update routing before the staleness check -/

theorem fetch_routing (s : Service) (rid : RepoId) (nid : NodeId) :
    (s.fetch rid nid).routing = s.routing := by
  unfold Service.fetch
  dsimp only
  repeat' split
  all_goals rfl

theorem fetch_events (s : Service) (rid : RepoId) (nid : NodeId) :
    (s.fetch rid nid).events = s.events := by
  unfold Service.fetch
  dsimp only
  repeat' split
  all_goals rfl

theorem handleRefsAnn_routing_eq (s : Service) (peer : GNode)
    (relayer announcer : NodeId) (ann : Announcement) (m : RefsAnn)
    (hv : (m.refs.any fun r => r.valid = false) = false) :
    (s.handleRefsAnn peer relayer ann announcer m).2.routing =
      (s.routing.insert m.rid announcer m.timestamp).2 := by
  have hv' : ¬ ((m.refs.any fun r => r.valid = false) = true) := by
    rw [hv]
    simp
  unfold Service.handleRefsAnn
  rw [if_neg hv']
  dsimp only
  repeat' split
  all_goals first
    | rfl
    | simp [fetch_routing]

theorem handleRefsAnn_seed_event (s : Service) (peer : GNode)
    (relayer announcer : NodeId) (ann : Announcement) (m : RefsAnn)
    (hv : (m.refs.any fun r => r.valid = false) = false)
    (hseed : (s.routing.insert m.rid announcer m.timestamp).1 =
      InsertResult.SeedAdded) :
    Event.seedDiscovered m.rid relayer ∈
      (s.handleRefsAnn peer relayer ann announcer m).2.events := by
  have hv' : ¬ ((m.refs.any fun r => r.valid = false) = true) := by
    rw [hv]
    simp
  unfold Service.handleRefsAnn
  rw [if_neg hv']
  dsimp only
  rw [hseed]
  repeat' split
  all_goals simp [fetch_events]

/-- C10. A refs announcement from another node with all per-remote
signatures valid and an in-bound timestamp always updates the routing
table with the row `(rid, announcer, timestamp)` — the insertion happens
before the gossip-log staleness check, so the routing update (and the
`SeedDiscovered` event when the seed is new) occurs even when the
announcement is stale relative to the gossip log. -/
theorem refs_routing_updated_before_staleness (s : Service)
    (relayer : NodeId) (ann : Announcement) (m : RefsAnn)
    (hsig : ann.validSig = true)
    (hnode : ann.node ≠ s.nodeId)
    (hmsg : ann.message = AnnMessage.refs m)
    (hts : m.timestamp ≤ s.clock + maxTimeDeltaMillis)
    (hrefs : (m.refs.all fun r => r.valid) = true) :
    (s.handle_announcement relayer ann).2.routing =
      (s.routing.insert m.rid ann.node m.timestamp).2
    ∧ ((s.routing.insert m.rid ann.node m.timestamp).1 =
          InsertResult.SeedAdded →
        Event.seedDiscovered m.rid relayer ∈
          (s.handle_announcement relayer ann).2.events) := by
  have hv : (m.refs.any fun r => r.valid = false) = false := by
    rw [List.any_eq_false]
    intro r hr
    have := List.all_eq_true.mp hrefs r hr
    simp [this]
  have hle := not_lt_sub_of_le_add maxTimeDeltaMillis m.timestamp s.clock hts
  have hred : s.handle_announcement relayer ann =
      (s.gossipTouch ann.node).handleRefsAnn (s.gossipView ann.node)
        relayer ann ann.node m := by
    unfold Service.handle_announcement Service.gossipTouch
    rw [hmsg]
    simp [hsig, hnode, AnnMessage.timestamp, hle]
  constructor
  · rw [hred, handleRefsAnn_routing_eq _ _ _ _ _ _ hv]
    rfl
  · intro hseed
    rw [hred]
    exact handleRefsAnn_seed_event (s.gossipTouch ann.node)
      (s.gossipView ann.node) relayer ann.node ann m hv hseed

/-- The refs announcement used by the C10 witness: rid 9 announced by
node 1, stale relative to the gossip log but new to the routing table. -/
def annRefs9 : Announcement :=
  ⟨1, AnnMessage.refs ⟨9, [], 5, false, false⟩, true⟩

/-- A service whose gossip log already holds a newer refs announcement of
node 1 for rid 9, and whose routing table has no row `(9, 1)`. -/
def svcStaleRefs : Service :=
  ⟨0, 0, cfg0, [(1, ⟨[(9, ⟨1, AnnMessage.refs ⟨9, [], 50, false, false⟩, true⟩)],
    none, none⟩)], ⟨[]⟩, [], trk0, [], [], [], [], [], [], []⟩

/-- Witness for C10: the stale refs announcement still inserts the routing
row and emits `SeedDiscovered`. -/
theorem refs_routing_updated_before_staleness_witness :
    (svcStaleRefs.handle_announcement 1 annRefs9).2.routing =
      ⟨[((9, 1), 5)]⟩
    ∧ Event.seedDiscovered 9 1 ∈
        (svcStaleRefs.handle_announcement 1 annRefs9).2.events := by
  have h := refs_routing_updated_before_staleness svcStaleRefs 1 annRefs9
    ⟨9, [], 5, false, false⟩ (by decide) (by decide) (by decide) (by decide)
    (by decide)
  exact ⟨by rw [h.1]; decide, h.2 (by decide)⟩

/-! ## C5: relaying of inventory announcements -/

/-- A fresh inventory announcement whose empty inventory produces no
routing change: node 1 announces nothing at time 0. -/
def annInvEmpty : Announcement :=
  ⟨1, AnnMessage.inventory ⟨[], 0⟩, true⟩

/-- Counterexample to C5 as stated: an inventory announcement from
another node passing signature and timestamp checks, fresh with respect
to the gossip log, received while `config.relay = true`, for which
`handle_announcement` nevertheless returns `false` (not relayed), because
the routing-table sync produced no change. -/
theorem inventory_relay_cex :
    svc0.config.relay = true
    ∧ annInvEmpty.validSig = true
    ∧ annInvEmpty.node ≠ svc0.nodeId
    ∧ annInvEmpty.message.timestamp ≤ svc0.clock + maxTimeDeltaMillis
    ∧ ((svc0.gossipView annInvEmpty.node).inventory_announced annInvEmpty).1 = true
    ∧ (svc0.handle_announcement 2 annInvEmpty).1 = Except.ok false := by
  decide

/-- C5 (amended). An inventory announcement from another node that passes
the signature and timestamp checks and is fresh with respect to the
gossip log is relayed (`handle_announcement` returns `true`) iff the
routing-table sync it triggers changes at least one entry (added, removed
or time-updated) **and** `config.relay = true`; a fresh announcement whose
inventory leaves the routing table unchanged is not relayed. -/
theorem inventory_relay_requires_routing_change (s : Service)
    (relayer : NodeId) (ann : Announcement) (m : InventoryAnn)
    (hsig : ann.validSig = true)
    (hnode : ann.node ≠ s.nodeId)
    (hmsg : ann.message = AnnMessage.inventory m)
    (hts : m.timestamp ≤ s.clock + maxTimeDeltaMillis)
    (hfresh : ((s.gossipView ann.node).inventory_announced ann).1 = true) :
    (s.handle_announcement relayer ann).1 =
      Except.ok (!(routingSync s.routing m.inventory ann.node
        m.timestamp).1.isEmpty && s.config.relay) := by
  have hle := not_lt_sub_of_le_add maxTimeDeltaMillis m.timestamp s.clock hts
  have hred : s.handle_announcement relayer ann =
      (s.gossipTouch ann.node).handleInventoryAnn (s.gossipView ann.node)
        ann ann.node m := by
    unfold Service.handle_announcement Service.gossipTouch
    rw [hmsg]
    simp [hsig, hnode, AnnMessage.timestamp, hle]
  rw [hred]
  unfold Service.handleInventoryAnn Service.sync_routing
  dsimp only
  rw [hfresh]
  have hgt : (s.gossipTouch ann.node).routing = s.routing := rfl
  have hgc : (s.gossipTouch ann.node).config = s.config := rfl
  rw [hgt, hgc]
  by_cases hE :
      (routingSync s.routing m.inventory ann.node m.timestamp).1.isEmpty = true
  · rw [if_neg (by simp), if_pos hE]
    simp [hE]
  · rw [if_neg (by simp), if_neg hE]
    simp only [Bool.not_eq_true] at hE
    simp [hE]

/-- The inventory announcement used by the C5 witness: node 1 announces
repository 5 at time 1. -/
def annInv5 : Announcement :=
  ⟨1, AnnMessage.inventory ⟨[5], 1⟩, true⟩

/-- Witness for C5 (amended): a fresh inventory announcement that adds a
routing entry is relayed when `config.relay = true`. -/
theorem inventory_relay_requires_routing_change_witness :
    (svc0.handle_announcement 2 annInv5).1 = Except.ok true := by
  have h := inventory_relay_requires_routing_change svc0 2 annInv5 ⟨[5], 1⟩
    (by decide) (by decide) (by decide) (by decide) (by decide)
  rw [h]
  decide

/-- Witness for C2 at a concrete connected session and a far-future
announcement. -/
theorem invalid_timestamp_rejected_witness :
    (svcConn2.handle_announcement 2 annFuture).1 =
      Except.error (SessionError.invalidTimestamp annFuture.message.timestamp)
    ∧ (svcConn2.received_message 2 (Message.announcement annFuture)).outbox =
        [Intent.disconnect 2 (DiscReason.session
          (SessionError.invalidTimestamp annFuture.message.timestamp))] := by
  have h := invalid_timestamp_rejected svcConn2 2 annFuture (by decide)
    (by decide) (by decide)
  refine ⟨h.1, ?_⟩
  have h5 := h.2.2.2.2 2 (Session.mkInbound 2 false 0) (by decide) (by decide)
  rw [h5]
  decide

/-! ## C3 / C9: behaviour of `disconnected` -/

theorem connect_reqs_results (s : Service) (nid : NodeId) :
    (s.connect nid).2.fetchReqs = s.fetchReqs
    ∧ (s.connect nid).2.sentResults = s.sentResults := by
  have ha : (s.attemptedStamp nid).fetchReqs = s.fetchReqs
      ∧ (s.attemptedStamp nid).sentResults = s.sentResults := by
    unfold Service.attemptedStamp
    split <;> exact ⟨rfl, rfl⟩
  unfold Service.connect
  by_cases h1 : (lookupA s.sessions nid).isSome = true
  · simp [h1]
  · by_cases h2 : nid = s.nodeId
    · simp [h1, h2]
    · rw [if_neg h1, if_neg h2]
      dsimp only
      exact ⟨ha.1, ha.2⟩

theorem foldl_connect_reqs_results (l : List (NodeId × AddrEntry)) :
    ∀ s : Service,
      (l.foldl (fun acc e => (acc.connect e.1).2) s).fetchReqs = s.fetchReqs
      ∧ (l.foldl (fun acc e => (acc.connect e.1).2) s).sentResults =
          s.sentResults := by
  induction l with
  | nil => exact fun s => ⟨rfl, rfl⟩
  | cons e tl ih =>
    intro s
    simp only [List.foldl_cons]
    have hc := connect_reqs_results s e.1
    have hrec := ih ((s.connect e.1).2)
    exact ⟨hrec.1.trans hc.1, hrec.2.trans hc.2⟩

theorem maintain_reqs_results (s : Service) :
    (s.maintain_connections).fetchReqs = s.fetchReqs
    ∧ (s.maintain_connections).sentResults = s.sentResults := by
  unfold Service.maintain_connections
  dsimp only
  exact foldl_connect_reqs_results _ s

theorem disconnected_reqs_results (s : Service) (remote : NodeId)
    (reason : DiscReason) (sess : Session)
    (hs : lookupA s.sessions remote = some sess) :
    (s.disconnected remote reason).fetchReqs =
      (cancelLoop remote ("disconnected: " ++ reason.display) sess.fetching
        s.fetchReqs s.sentResults).1
    ∧ (s.disconnected remote reason).sentResults =
        (cancelLoop remote ("disconnected: " ++ reason.display) sess.fetching
          s.fetchReqs s.sentResults).2 := by
  unfold Service.disconnected
  rw [hs]
  dsimp only
  by_cases hp : remote ∈ s.config.peers
  · rw [if_pos hp]
    exact ⟨rfl, rfl⟩
  · rw [if_neg hp]
    by_cases ho : sess.outbound = true
    · rw [if_pos ho]
      have hm := maintain_reqs_results
        { s with
          fetchReqs := (cancelLoop remote ("disconnected: " ++ reason.display)
            sess.fetching s.fetchReqs s.sentResults).1
          sentResults := (cancelLoop remote ("disconnected: " ++ reason.display)
            sess.fetching s.fetchReqs s.sentResults).2
          sessions := eraseA s.sessions remote }
      exact ⟨hm.1, hm.2⟩
    · rw [if_neg ho]
      exact ⟨rfl, rfl⟩

theorem cancelLoop_reqs (remote : NodeId) (fmsg : String) :
    ∀ (l : List RepoId) (reqs : List (RepoId × NodeId))
      (sent : List ((RepoId × NodeId) × UserFetchResult)),
      (cancelLoop remote fmsg l reqs sent).1 =
        reqs.filter fun k => !(decide (k.1 ∈ l) && decide (k.2 = remote)) := by
  intro l
  induction l with
  | nil =>
    intro reqs sent
    simp [cancelLoop]
  | cons rid rest ih =>
    intro reqs sent
    unfold cancelLoop
    by_cases hmem : (rid, remote) ∈ reqs
    · rw [if_pos hmem, ih]
      rw [List.filter_filter]
      apply List.filter_congr
      intro k hk
      rcases k with ⟨kr, kn⟩
      by_cases h1 : kr = rid <;> by_cases h2 : kn = remote <;>
        by_cases h3 : kr ∈ rest <;>
        simp [h1, h2, h3, List.mem_cons, Prod.ext_iff]
    · rw [if_neg hmem, ih]
      apply List.filter_congr
      intro k hk
      rcases k with ⟨kr, kn⟩
      have hne : ¬(kr = rid ∧ kn = remote) := by
        rintro ⟨h1, h2⟩
        exact hmem (h1 ▸ h2 ▸ hk)
      by_cases h2 : kn = remote <;> by_cases h3 : kr ∈ rest <;>
        (simp [h2, h3, List.mem_cons]; try tauto)

theorem cancelLoop_sent (remote : NodeId) (fmsg : String) :
    ∀ (l : List RepoId) (reqs : List (RepoId × NodeId))
      (sent : List ((RepoId × NodeId) × UserFetchResult)), l.Nodup →
      (cancelLoop remote fmsg l reqs sent).2 =
        sent ++ (l.filter fun rid => decide ((rid, remote) ∈ reqs)).map
          (fun rid => ((rid, remote), UserFetchResult.failed fmsg)) := by
  intro l
  induction l with
  | nil =>
    intro reqs sent _
    simp [cancelLoop]
  | cons rid rest ih =>
    intro reqs sent hnd
    rcases List.nodup_cons.mp hnd with ⟨hrid, hrest⟩
    unfold cancelLoop
    by_cases hmem : (rid, remote) ∈ reqs
    · rw [if_pos hmem, ih _ _ hrest]
      have hcong : (rest.filter fun r =>
            decide ((r, remote) ∈ reqs.filter fun k => k ≠ (rid, remote)))
          = rest.filter fun r => decide ((r, remote) ∈ reqs) := by
        apply List.filter_congr
        intro r hr
        have hne : r ≠ rid := fun hc => hrid (hc ▸ hr)
        simp [List.mem_filter, hne]
      rw [hcong]
      simp [List.filter_cons, hmem]
    · rw [if_neg hmem, ih _ _ hrest]
      simp [List.filter_cons, hmem]

/-- C3. After `disconnected(peer, reason)` is processed, every pending
user fetch request keyed by that peer for a repository the session was
fetching has been removed from `fetch_reqs`, and the reply log has grown
by a block of `Failed` results in which that key occurs exactly once,
with reason `"disconnected: " ++ <the disconnect reason>`. -/
theorem disconnect_cancels_pending_fetches (s : Service) (remote : NodeId)
    (reason : DiscReason) (sess : Session) (rid : RepoId)
    (hs : lookupA s.sessions remote = some sess)
    (hnd : sess.fetching.Nodup)
    (hrid : rid ∈ sess.fetching)
    (hreq : (rid, remote) ∈ s.fetchReqs) :
    ((rid, remote) ∉ (s.disconnected remote reason).fetchReqs)
    ∧ ∃ delta,
        (s.disconnected remote reason).sentResults = s.sentResults ++ delta
        ∧ delta.filter (fun e => e.1 = (rid, remote)) =
            [((rid, remote), UserFetchResult.failed
              ("disconnected: " ++ reason.display))] := by
  obtain ⟨hfr, hsr⟩ := disconnected_reqs_results s remote reason sess hs
  constructor
  · rw [hfr, cancelLoop_reqs]
    intro hmem
    rw [List.mem_filter] at hmem
    simp [hrid] at hmem
  · refine ⟨(sess.fetching.filter fun r =>
      decide ((r, remote) ∈ s.fetchReqs)).map
        (fun r => ((r, remote), UserFetchResult.failed
          ("disconnected: " ++ reason.display))), ?_, ?_⟩
    · rw [hsr, cancelLoop_sent _ _ _ _ _ hnd]
    · rw [filter_map_comm]
      have hmem' : rid ∈ sess.fetching.filter fun r =>
          decide ((r, remote) ∈ s.fetchReqs) :=
        List.mem_filter.mpr ⟨hrid, by simp [hreq]⟩
      have hcong : ((sess.fetching.filter fun r =>
            decide ((r, remote) ∈ s.fetchReqs)).filter fun a =>
              (((a, remote), UserFetchResult.failed
                ("disconnected: " ++ reason.display)) :
                (RepoId × NodeId) × UserFetchResult).1 = (rid, remote))
          = (sess.fetching.filter fun r =>
              decide ((r, remote) ∈ s.fetchReqs)).filter fun a => a = rid := by
        apply List.filter_congr
        intro a ha
        simp [Prod.ext_iff]
      rw [hcong, filter_eq_singleton _ _ (List.Nodup.filter _ hnd) hmem']
      simp

/-- Witness for C3: a connected persistent peer 1 fetching repository 4
with a pending user request disconnects; the request is cancelled with a
`"disconnected: "`-prefixed failure. -/
def svcFetching : Service :=
  ⟨0, 0, ⟨true, false, [1], 1⟩, [], ⟨[]⟩,
    [(1, ⟨1, false, SessionState.Connected PingState.idle, 0, 0, [4], [],
      true, none⟩)],
    trk0, [], [], [], [(4, 1)], [], [], []⟩

/-- Witness for C3 at the concrete fetching service. -/
theorem disconnect_cancels_pending_fetches_witness :
    ((4, 1) ∉ (svcFetching.disconnected 1 DiscReason.command).fetchReqs)
    ∧ (svcFetching.disconnected 1 DiscReason.command).sentResults =
        [((4, 1), UserFetchResult.failed "disconnected: command")] := by
  have h := disconnect_cancels_pending_fetches svcFetching 1
    DiscReason.command
    ⟨1, false, SessionState.Connected PingState.idle, 0, 0, [4], [], true, none⟩
    4 (by decide) (by decide) (by decide) (by decide)
  refine ⟨h.1, ?_⟩
  decide

/-- `Session::to_disconnected(since, retry_at)`: the session state moves
to `Disconnected` with the given retry time (modelled from the spec;
`session.rs` is not under the embedded core). -/
def sessDisconnect (sess : Session) (retryAt : Nat) : Session :=
  { sess with state := SessionState.Disconnected retryAt }

/-- C9. When a configured (persistent) peer with `k` prior connection
attempts disconnects, its session moves to `Disconnected` with
`retry_at = now + delay` and a wakeup for `delay` is enqueued, where
`delay = min(max(2^k, 3 s), 60 min)` — the exponentiation saturating at
the `u64` maximum. -/
theorem persistent_reconnect_delay (s : Service) (remote : NodeId)
    (reason : DiscReason) (sess : Session)
    (hs : lookupA s.sessions remote = some sess)
    (hp : remote ∈ s.config.peers) :
    lookupA (s.disconnected remote reason).sessions remote =
      some (sessDisconnect sess
        (s.clock + Nat.min (Nat.max (satPow2 sess.attempts) 3) 3600 * 1000))
    ∧ (s.disconnected remote reason).outbox =
        s.outbox ++ [Intent.wakeup
          (Nat.min (Nat.max (satPow2 sess.attempts) 3) 3600 * 1000)] := by
  have hmax : ∀ a b : Nat, Nat.max a b = if a ≤ b then b else a :=
    fun a b => rfl
  have hmin : ∀ a b : Nat, Nat.min a b = if a ≤ b then a else b :=
    fun a b => rfl
  have harith : clampNat (satPow2 sess.attempts * 1000)
      minReconnectionDeltaMillis maxReconnectionDeltaMillis =
      Nat.min (Nat.max (satPow2 sess.attempts) 3) 3600 * 1000 := by
    unfold clampNat minReconnectionDeltaMillis maxReconnectionDeltaMillis
    rw [hmax, hmax, hmin, hmin]
    split_ifs <;> omega
  unfold Service.disconnected
  rw [hs]
  dsimp only
  rw [if_pos hp, harith]
  exact ⟨lookupA_setA_self _ _ _, rfl⟩

/-- Witness for C9: persistent peer 1 with no prior attempt reconnects
after `max(2^0, 3) = 3` seconds. -/
theorem persistent_reconnect_delay_witness :
    lookupA ((svcFetching.disconnected 1 DiscReason.command).sessions) 1 =
      some ⟨1, false, SessionState.Disconnected 3000, 0, 0, [4], [], true, none⟩
    ∧ Intent.wakeup 3000 ∈
        (svcFetching.disconnected 1 DiscReason.command).outbox := by
  have h := persistent_reconnect_delay svcFetching 1 DiscReason.command
    ⟨1, false, SessionState.Connected PingState.idle, 0, 0, [4], [], true, none⟩
    (by decide) (by decide)
  constructor
  · rw [h.1]
    decide
  · rw [h.2]
    decide


end Heartwood
